import Mathlib

/-!
Verification of the CookieGuard browser extension (background.js, popup.js,
content script, alternate popup) against its natural-language specification.

The JavaScript sources are shallowly embedded below: pure functions become
Lean functions, the event handlers' effects on the in-memory state become
explicit state-passing functions, and JS `undefined` is modelled with
`Option`.  JS string operations (`includes`, `endsWith`, `startsWith`,
`toLowerCase`) are modelled by executable character-list functions with the
same ASCII semantics.
-/

/- ## JS string primitives -/

/-- Does the second list start with the first list (character-wise)? -/
def strStartsL : List Char → List Char → Bool
  | [], _ => true
  | _ :: _, [] => false
  | p :: ps, c :: cs => p == c && strStartsL ps cs

/-- Does the list contain the pattern as a contiguous sublist? -/
def strFindL (pat : List Char) : List Char → Bool
  | [] => strStartsL pat []
  | c :: cs => strStartsL pat (c :: cs) || strFindL pat cs

/-- JS `s.includes(pat)`: substring containment. -/
def jsIncludes (s pat : String) : Bool :=
  strFindL pat.toList s.toList

/-- JS `s.startsWith(pre)`. -/
def strStarts (s pre : String) : Bool :=
  strStartsL pre.toList s.toList

/-- JS `s.endsWith(suf)`. -/
def jsEndsWith (s suf : String) : Bool :=
  strStartsL suf.toList.reverse s.toList.reverse

/-- ASCII lower-casing of a character, as JS `toLowerCase` does on ASCII. -/
def lowerChar (c : Char) : Char :=
  if 65 ≤ c.toNat && c.toNat ≤ 90 then Char.ofNat (c.toNat + 32) else c

/-- JS `s.toLowerCase()` (ASCII fragment, which covers all dictionary words). -/
def lowerStr (s : String) : String :=
  String.mk (s.toList.map lowerChar)

/-- JS `domain.replace(/^\./, '')`: strip one leading dot. -/
def stripDot (d : String) : String :=
  match d.toList with
  | '.' :: rest => String.mk rest
  | _ => d

/-- JS string coercion of a possibly-undefined string (`undefined` prints as
"undefined" when concatenated). -/
def jsString : Option String → String
  | some s => s
  | none => "undefined"

/-- JS `Set.has` on a list of keys. -/
def hasKey (keys : List String) (k : String) : Bool :=
  decide (k ∈ keys)

/- ## Data model -/

/-- A browser cookie as observed by the extension.  `value` is `none` when the
field is absent (JS `undefined`); `expirationDate` is epoch seconds, `none`
for a session cookie. -/
structure Cookie where
  name : String
  domain : String
  value : Option String
  path : String
  secure : Bool
  httpOnly : Bool
  sameSite : String
  expirationDate : Option Nat
  deriving Repr, DecidableEq

/-- A History Ledger entry: the cookie snapshot spread together with the
classification, score, timestamps and lifecycle status, exactly the object
built by the `cookieHistory.set` calls in background.js. -/
structure HistoryEntry where
  cookie : Cookie
  potentialData : List String
  riskScore : Nat
  firstSeen : Nat
  lastSeen : Nat
  status : String
  blockedAt : Option Nat := none
  removedAt : Option Nat := none
  autoBlocked : Bool := false
  deriving Repr, DecidableEq

/-- A Permission Record as persisted in `chrome.storage.sync` under key
`cookie_<name>_<domain>`. -/
structure Permission where
  allowedDataTypes : List String
  action : String
  timestamp : Nat
  cookieName : String
  cookieDomain : String
  potentialData : List String
  blocked : Bool
  autoBlocked : Bool := false
  deriving Repr, DecidableEq

/-- Aggregate stats broadcast by the background worker. -/
structure Stats where
  total : Nat
  suspicious : Nat
  blocked : Nat
  allowed : Nat
  deriving Repr, DecidableEq

/-- The `${name}_${domain}` template used for Map and Set keys. -/
def cookieKeyOf (name domain : String) : String :=
  name ++ "_" ++ domain

/-- Key of a live cookie. -/
def keyC (c : Cookie) : String :=
  cookieKeyOf c.name c.domain

/-- Key under which a history entry is stored in the `cookieHistory` Map. -/
def entryKey (e : HistoryEntry) : String :=
  cookieKeyOf e.cookie.name e.cookie.domain

/-- The `cookie_${name}_${domain}` template for permission storage keys. -/
def permKeyOf (name domain : String) : String :=
  "cookie_" ++ name ++ "_" ++ domain

/-- Lookup in the persisted sync-storage object, modelled as an association
list from storage key to Permission Record. -/
def lookupPerm (perms : List (String × Permission)) (k : String) : Option Permission :=
  (perms.find? (fun q => q.1 == k)).map (fun q => q.2)

/- ## Classifier instances -/

/-- Shared loop of every `detectPotentialData` implementation: collect the
category keys of the table whose keyword list has a substring match in the
cookie string.  The JS `[...new Set(dataTypes)]` dedup is the identity here
because each object key is pushed at most once. -/
def detectFrom (table : List (String × List String)) (cookieStr : String) : List String :=
  (table.filter (fun p => p.2.any (fun pat => jsIncludes cookieStr pat))).map Prod.fst

/-- Keyword table of `detectPotentialData` in background.js. -/
def backgroundDataPatterns : List (String × List String) :=
  [("email", ["email", "mail", "@"]),
   ("name", ["name", "user", "username", "fullname", "firstname", "lastname"]),
   ("location", ["location", "geo", "lat", "long", "gps", "address", "city", "country", "zip"]),
   ("device_info", ["device", "os", "browser", "platform", "useragent", "screen", "resolution", "mobile"]),
   ("ip_address", ["ip", "address", "remoteaddr", "clientip"]),
   ("browsing_behavior", ["behavior", "click", "scroll", "movement", "activity", "history", "visit", "visitor"]),
   ("preferences", ["preference", "setting", "config", "theme", "language", "currency", "pref"]),
   ("session_data", ["session", "login", "token", "auth", "password", "credential", "sid"]),
   ("marketing_data", ["ad", "marketing", "campaign", "tracking", "analytics", "conversion"]),
   ("social_media_data", ["social", "facebook", "twitter", "linkedin", "instagram", "google", "youtube"]),
   ("shopping_data", ["cart", "basket", "purchase", "product", "item", "price"]),
   ("demographic_data", ["age", "gender", "birth", "income", "education", "demographic"])]

/-- Keyword table of `detectPotentialData` in the content script. -/
def contentDataPatterns : List (String × List String) :=
  [("email", ["email", "mail", "@"]),
   ("name", ["name", "user", "username", "fullname", "firstname", "lastname"]),
   ("location", ["location", "geo", "lat", "long", "gps", "address", "city", "country", "zip"]),
   ("device_info", ["device", "os", "browser", "platform", "useragent", "screen", "resolution", "mobile"]),
   ("ip_address", ["ip", "address", "remoteaddr", "clientip"]),
   ("browsing_behavior", ["behavior", "click", "scroll", "movement", "activity", "history", "visit"]),
   ("preferences", ["preference", "setting", "config", "theme", "language", "currency"]),
   ("session_data", ["session", "login", "token", "auth", "password", "credential"]),
   ("marketing_data", ["ad", "marketing", "campaign", "tracking", "analytics", "conversion"]),
   ("social_media_data", ["social", "facebook", "twitter", "linkedin", "instagram", "google", "youtube"]),
   ("shopping_data", ["cart", "basket", "purchase", "product", "item", "price"]),
   ("demographic_data", ["age", "gender", "birth", "income", "education"])]

/-- Keyword table of `detectPotentialData` in popup.js (10 categories only). -/
def popupDataPatterns : List (String × List String) :=
  [("email", ["email", "@", "mail"]),
   ("name", ["name", "user", "username", "fullname"]),
   ("location", ["location", "geo", "lat", "long", "gps", "address"]),
   ("device_info", ["device", "os", "browser", "platform", "useragent"]),
   ("ip_address", ["ip", "address"]),
   ("browsing_behavior", ["behavior", "click", "scroll", "movement", "activity"]),
   ("preferences", ["preference", "setting", "config", "theme"]),
   ("session_data", ["session", "login", "token", "auth"]),
   ("marketing_data", ["ad", "marketing", "campaign", "tracking", "analytics"]),
   ("social_media_data", ["social", "facebook", "twitter", "linkedin", "instagram", "google"])]

/-- The fixed closed 12-category vocabulary of the specification. -/
def categoryVocabulary : List String :=
  ["email", "name", "location", "device_info", "ip_address", "browsing_behavior",
   "preferences", "session_data", "marketing_data", "social_media_data",
   "shopping_data", "demographic_data"]

namespace Background

/-- background.js `detectPotentialData`: the cookie string is
`name + '=' + (value || '')`, lower-cased. -/
def detectPotentialData (c : Cookie) : List String :=
  detectFrom backgroundDataPatterns (lowerStr (c.name ++ "=" ++ (c.value.getD "")))

end Background

namespace Content

/-- content-script `detectPotentialData`: the cookie string is
`name + '=' + value` with no default, so an absent value concatenates as the
string "undefined". -/
def detectPotentialData (c : Cookie) : List String :=
  detectFrom contentDataPatterns (lowerStr (c.name ++ "=" ++ jsString c.value))

end Content

namespace Popup

/-- popup.js `detectPotentialData` (10-category table, no value default). -/
def detectPotentialData (c : Cookie) : List String :=
  detectFrom popupDataPatterns (lowerStr (c.name ++ "=" ++ jsString c.value))

end Popup

/- ## Risk scorer (background.js) -/

/-- The fixed tracker-pattern list of `calculateRiskScore`. -/
def trackingPatterns : List String :=
  ["_ga", "_gid", "_fbp", "fr", "track", "uid", "analytics", "ad", "pixel"]

/-- background.js `isSameDomain`: strip one leading dot, lower-case both,
then test symmetric suffix containment. -/
def isSameDomain (cookieDomain currentDomain : String) : Bool :=
  let normCookieDomain := lowerStr (stripDot cookieDomain)
  let normCurrentDomain := lowerStr (stripDot currentDomain)
  jsEndsWith normCurrentDomain normCookieDomain || jsEndsWith normCookieDomain normCurrentDomain

/-- Ambient context of `calculateRiskScore`: the global `activeTabDomain`
("" when unknown) and `Date.now()/1000` in epoch seconds. -/
structure ScoreCtx where
  activeTabDomain : String
  nowSec : Nat
  deriving Repr, DecidableEq

/-- background.js `calculateRiskScore`.  The `potentialData` argument is
`none` when the caller passes `undefined` (then the function classifies the
cookie itself). -/
def calculateRiskScore (ctx : ScoreCtx) (cookie : Cookie) (potentialData : Option (List String)) : Nat :=
  let dataTypes := match potentialData with
    | some l => l
    | none => Background.detectPotentialData cookie
  let cookieStr := lowerStr (cookie.name ++ jsString cookie.value)
  let trackerHits := (trackingPatterns.filter (fun p => jsIncludes cookieStr p)).length
  let thirdParty := if ctx.activeTabDomain != "" && !(isSameDomain cookie.domain ctx.activeTabDomain) then 2 else 0
  let longevity := match cookie.expirationDate with
    | some e => if ctx.nowSec + 31536000 < e then 1 else 0
    | none => 0
  let insecure := if !cookie.secure && cookie.domain != "" && !(strStarts cookie.domain "http") then 1 else 0
  dataTypes.length + trackerHits + thirdParty + longevity + insecure

/-- Modelled from the spec: the risk-score formula exactly as claim C1 states
it, with the insecure bonus conditioned on the page context being
transport-secure (an input the code's `calculateRiskScore` does not even
receive). -/
def specRiskScoreClaimed (pageTransportSecure : Bool) (ctx : ScoreCtx) (cookie : Cookie)
    (categories : List String) : Nat :=
  let cookieStr := lowerStr (cookie.name ++ jsString cookie.value)
  let trackerHits := (trackingPatterns.filter (fun p => jsIncludes cookieStr p)).length
  let thirdParty := if ctx.activeTabDomain != "" && !(isSameDomain cookie.domain ctx.activeTabDomain) then 2 else 0
  let longevity := match cookie.expirationDate with
    | some e => if ctx.nowSec + 31536000 < e then 1 else 0
    | none => 0
  let insecure := if !cookie.secure && pageTransportSecure then 1 else 0
  categories.length + trackerHits + thirdParty + longevity + insecure

/-- The risk-score formula with the insecure bonus as the code actually has
it: secure flag false, domain non-empty and the domain does not start with
"http" — page transport security is not consulted. -/
def specRiskScoreAmended (ctx : ScoreCtx) (cookie : Cookie) (categories : List String) : Nat :=
  let cookieStr := lowerStr (cookie.name ++ jsString cookie.value)
  let trackerHits := (trackingPatterns.filter (fun p => jsIncludes cookieStr p)).length
  let thirdParty := if ctx.activeTabDomain != "" && !(isSameDomain cookie.domain ctx.activeTabDomain) then 2 else 0
  let longevity := match cookie.expirationDate with
    | some e => if ctx.nowSec + 31536000 < e then 1 else 0
    | none => 0
  let insecure := if !cookie.secure && cookie.domain != "" && !(strStarts cookie.domain "http") then 1 else 0
  categories.length + trackerHits + thirdParty + longevity + insecure

/- ## Risk-level derivations (spec side) -/

/-- Modelled from the spec: the canonical score thresholds
(score at least 5 gives high, at least 3 gives medium, else low). -/
def riskLevelOfScore (score : Nat) : String :=
  if score ≥ 5 then "high" else if score ≥ 3 then "medium" else "low"

/-- Modelled from the spec: the per-category-count-only classifier variant
(count at least 3 gives high, at least 1 gives medium, else low). -/
def riskLevelOfCategoryCount (count : Nat) : String :=
  if count ≥ 3 then "high" else if count ≥ 1 then "medium" else "low"

/- ## Content-script warning path -/

namespace Content

/-- content-script `getRiskLevel` (the cookie argument is unused in the
source as well). -/
def getRiskLevel (dataTypesCount : Nat) (_cookie : Cookie) : String :=
  if dataTypesCount ≥ 3 then "high" else if dataTypesCount ≥ 1 then "medium" else "low"

/-- Result of content-script `analyzeCookieData`: the cookie spread together
with its classification and risk level. -/
structure Analyzed where
  cookie : Cookie
  potentialData : List String
  riskLevel : String
  deriving Repr, DecidableEq

/-- content-script `analyzeCookieData`. -/
def analyzeCookieData (c : Cookie) : Analyzed :=
  let potentialData := detectPotentialData c
  { cookie := c, potentialData := potentialData,
    riskLevel := getRiskLevel potentialData.length c }

end Content

/- ## Popup path (popup.js) -/

namespace Popup

/-- The popup's view of the current tab: the raw URL together with its parsed
hostname (URL parsing is abstracted; the hostname is supplied alongside). -/
structure TabCtx where
  url : String
  hostname : String
  deriving Repr, DecidableEq

/-- A cookie as the popup sees it: either a live cookie or a pseudo-cookie
for a blocked permission, which carries a `blocked` flag and a stored
classification. -/
structure PCookie where
  cookie : Cookie
  blocked : Bool := false
  potentialData : Option (List String) := none
  deriving Repr, DecidableEq

/-- Result of popup `analyzeCookieData`. -/
structure Analyzed where
  cookie : PCookie
  potentialData : List String
  riskLevel : String
  riskScore : Nat
  permission : Option Permission
  isBlocked : Bool
  deriving Repr, DecidableEq

/-- popup.js `analyzeCookieData`.  `perm` is the stored permission fetched
for the cookie's key, `tab` the current tab (`none` when `currentTabUrl` is
unset), `nowSec` is `Date.now()/1000`. -/
def analyzeCookieData (nowSec : Nat) (tab : Option TabCtx) (perm : Option Permission)
    (pc : PCookie) : Analyzed :=
  let c := pc.cookie
  let isBlocked := pc.blocked || (match perm with | some p => p.blocked | none => false)
  let potentialData := match pc.potentialData with
    | some l => l
    | none => detectPotentialData c
  let s0 := potentialData.length
  let s1 := s0 + (match tab with
    | some t =>
      if jsString c.value != "[BLOCKED]" then
        (let cd := stripDot c.domain
         if !(jsIncludes t.hostname cd) && !(jsIncludes cd t.hostname) then 2 else 0)
      else 0
    | none => 0)
  let s2 := s1 + (match c.expirationDate with
    | some e => if nowSec + 31536000 < e then 1 else 0
    | none => 0)
  let s3 := s2 + (if !c.secure && (match tab with
      | some t => strStarts t.url "https"
      | none => false) then 1 else 0)
  let score := if isBlocked then max s3 5 else s3
  { cookie := pc, potentialData := potentialData,
    riskLevel := if score ≥ 5 then "high" else if score ≥ 3 then "medium" else "low",
    riskScore := score, permission := perm, isBlocked := isBlocked }

end Popup

/- ## History Ledger operations (background.js) -/

/-- The upsert performed by the `cookies.onChanged` set branch and by
`scanExistingCookies`: a fresh entry object is built from the cookie, the
classification and the score; `firstSeen` is preserved when the key already
exists, `lastSeen` is set to now, and `status` is set to "active" (any
previous `blockedAt`, `removedAt` or `autoBlocked` field is dropped because
the object is rebuilt from scratch). -/
def recordSighting (prev : Option HistoryEntry) (c : Cookie) (potentialData : List String)
    (riskScore : Nat) (now : Nat) : HistoryEntry :=
  { cookie := c, potentialData := potentialData, riskScore := riskScore,
    firstSeen := match prev with | some e => e.firstSeen | none => now,
    lastSeen := now, status := "active" }

/-- The `cookies.onChanged` removed branch acting on an existing entry: only
an "active" entry transitions to "removed" (with `removedAt` set); any other
status is left untouched. -/
def recordRemoval (e : HistoryEntry) (now : Nat) : HistoryEntry :=
  if e.status = "active" then { e with status := "removed", removedAt := some now } else e

/- ## Permission Store writes (background.js) -/

/-- background.js blocking predicate, as computed in
`handleCookiePermissionsUpdate` and `shouldBlockCookie`. -/
def isBlocking (action : String) (allowedDataTypes : List String) : Bool :=
  action == "block" || (action == "custom" && allowedDataTypes.isEmpty)

/-- The Permission Record written by `handleCookiePermissionsUpdate` for a
user decision. -/
def userPermissionRecord (name domain : String) (cookiePotentialData : List String)
    (allowedDataTypes : List String) (action : String) (now : Nat) : Permission :=
  { allowedDataTypes := allowedDataTypes, action := action, timestamp := now,
    cookieName := name, cookieDomain := domain,
    potentialData := cookiePotentialData,
    blocked := isBlocking action allowedDataTypes }

/-- The Permission Record written by the auto-block path of
`scanExistingCookies` (action "block", empty allow-list, `blocked` written
as the literal `true`). -/
def autoBlockPermissionRecord (name domain : String) (cookiePotentialData : List String)
    (now : Nat) : Permission :=
  { allowedDataTypes := [], action := "block", timestamp := now,
    cookieName := name, cookieDomain := domain, autoBlocked := true,
    blocked := true, potentialData := cookiePotentialData }

/- ## Reconciliation Engine: getAllCookieData merged view (background.js) -/

/-- An element of the `cookies` array produced by `getAllCookieData`
(the opaque AI-explanation text is not modelled). -/
structure Analyzed where
  name : String
  domain : String
  value : Option String
  path : String
  secure : Bool
  httpOnly : Bool
  sameSite : String
  expirationDate : Option Nat
  potentialData : List String
  riskLevel : String
  riskScore : Nat
  permission : Option Permission
  status : String
  firstSeen : Nat
  lastSeen : Nat
  blockedAt : Option Nat := none
  autoBlocked : Bool := false
  deriving Repr, DecidableEq

/-- Key of a merged-view entry. -/
def keyA (a : Analyzed) : String :=
  cookieKeyOf a.name a.domain

/-- `cookieHistory.get(key)` on the Map modelled as an entry list. -/
def historyFind (history : List HistoryEntry) (k : String) : Option HistoryEntry :=
  history.find? (fun e => entryKey e == k)

/-- The entry `getAllCookieData` pushes for a live cookie: live cookie
fields, the stored classification and score when a history entry exists
(otherwise freshly computed), the inlined score thresholds, and status
"blocked" exactly when a blocking permission exists. -/
def analyzeLive (ctx : ScoreCtx) (history : List HistoryEntry)
    (perms : List (String × Permission)) (now : Nat) (c : Cookie) : Analyzed :=
  let he := historyFind history (cookieKeyOf c.name c.domain)
  let potentialData := match he with
    | some e => e.potentialData
    | none => Background.detectPotentialData c
  let score := match he with
    | some e => e.riskScore
    | none => calculateRiskScore ctx c (some potentialData)
  let perm := lookupPerm perms (permKeyOf c.name c.domain)
  { name := c.name, domain := c.domain, value := c.value, path := c.path,
    secure := c.secure, httpOnly := c.httpOnly, sameSite := c.sameSite,
    expirationDate := c.expirationDate, potentialData := potentialData,
    riskLevel := if score ≥ 5 then "high" else if score ≥ 3 then "medium" else "low",
    riskScore := score, permission := perm,
    status := if (match perm with | some p => p.blocked | none => false) then "blocked" else "active",
    firstSeen := match he with | some e => e.firstSeen | none => now,
    lastSeen := match he with | some e => e.lastSeen | none => now }

/-- The entry `getAllCookieData` pushes for a history-only cookie: the stored
snapshot with the value masked as "[BLOCKED/REMOVED]" and JS `||` defaults on
the falsy fields. -/
def analyzeHistory (perms : List (String × Permission)) (e : HistoryEntry) : Analyzed :=
  let perm := lookupPerm perms (permKeyOf e.cookie.name e.cookie.domain)
  { name := e.cookie.name, domain := e.cookie.domain,
    value := some "[BLOCKED/REMOVED]",
    path := if e.cookie.path = "" then "/" else e.cookie.path,
    secure := e.cookie.secure, httpOnly := e.cookie.httpOnly,
    sameSite := if e.cookie.sameSite = "" then "unspecified" else e.cookie.sameSite,
    expirationDate := e.cookie.expirationDate,
    potentialData := e.potentialData,
    riskLevel := if e.riskScore ≥ 5 then "high" else if e.riskScore ≥ 3 then "medium" else "low",
    riskScore := e.riskScore, permission := perm,
    status := if e.status = "" then "removed" else e.status,
    firstSeen := e.firstSeen, lastSeen := e.lastSeen,
    blockedAt := e.blockedAt, autoBlocked := e.autoBlocked }

/-- The domain relation of the history loops: strip a leading dot from the
stored domain and test substring containment in either direction against the
site hostname. -/
def historyDomainRelated (hostname : String) (e : HistoryEntry) : Bool :=
  let cookieDomain := stripDot e.cookie.domain
  jsIncludes hostname cookieDomain || jsIncludes cookieDomain hostname

/-- The `cookies` array built by `getAllCookieData`: first every live cookie
(keys collected in `processedCookies`), then every history entry whose key
was not processed and whose domain relates to the hostname. -/
def getAllCookieDataCookies (ctx : ScoreCtx) (hostname : String) (cookies : List Cookie)
    (history : List HistoryEntry) (perms : List (String × Permission)) (now : Nat) :
    List Analyzed :=
  (cookies.map (analyzeLive ctx history perms now)) ++
    ((history.filter (fun e =>
        !(hasKey (cookies.map keyC) (entryKey e)) && historyDomainRelated hostname e)).map
      (analyzeHistory perms))

/- ## Stats update (background.js updateCookieStats) -/

/-- Whether the permission stored for a history entry's key has
`blocked = true`. -/
def permBlockedFor (perms : List (String × Permission)) (e : HistoryEntry) : Bool :=
  match lookupPerm perms (permKeyOf e.cookie.name e.cookie.domain) with
  | some p => p.blocked
  | none => false

/-- Accumulator of `updateCookieStats`: the `allCookieKeys` set and the three
counters. -/
structure StatsAcc where
  keys : List String
  suspicious : Nat
  blocked : Nat
  allowed : Nat
  deriving Repr, DecidableEq

/-- The live-cookie loop of `updateCookieStats`: per cookie, add its key to
the set, count it suspicious when its freshly computed score is at least 3,
and count it allowed when an allow or non-empty custom permission exists. -/
def liveStatsLoop (ctx : ScoreCtx) (perms : List (String × Permission)) :
    List Cookie → StatsAcc → StatsAcc
  | [], acc => acc
  | c :: rest, acc =>
    let k := cookieKeyOf c.name c.domain
    let keys := if k ∈ acc.keys then acc.keys else acc.keys ++ [k]
    let potentialData := Background.detectPotentialData c
    let score := calculateRiskScore ctx c (some potentialData)
    let suspicious := acc.suspicious + (if score ≥ 3 then 1 else 0)
    let allowed := acc.allowed + (match lookupPerm perms (permKeyOf c.name c.domain) with
      | some p =>
        if p.action == "allow" || (p.action == "custom" && !p.allowedDataTypes.isEmpty)
        then 1 else 0
      | none => 0)
    liveStatsLoop ctx perms rest
      { keys := keys, suspicious := suspicious, blocked := acc.blocked, allowed := allowed }

/-- The history loop of `updateCookieStats`: for every entry whose domain
relates to the hostname, add its key (counting it suspicious on a stored
score of at least 3 only when the key is new), and when a blocking permission
exists for its key, overwrite the in-memory status to "blocked" and bump the
blocked counter.  Returns the final accumulator and the (possibly mutated)
history list. -/
def historyStatsLoop (hostname : String) (perms : List (String × Permission)) :
    List HistoryEntry → StatsAcc → StatsAcc × List HistoryEntry
  | [], acc => (acc, [])
  | e :: rest, acc =>
    if historyDomainRelated hostname e then
      let k := entryKey e
      let newKeys := acc.keys ++ [k]
      let newSuspicious := acc.suspicious + (if e.riskScore ≥ 3 then 1 else 0)
      let acc1 := if k ∈ acc.keys then acc
        else { acc with keys := newKeys, suspicious := newSuspicious }
      if permBlockedFor perms e then
        let r := historyStatsLoop hostname perms rest { acc1 with blocked := acc1.blocked + 1 }
        (r.1, { e with status := "blocked" } :: r.2)
      else
        let r := historyStatsLoop hostname perms rest acc1
        (r.1, e :: r.2)
    else
      let r := historyStatsLoop hostname perms rest acc
      (r.1, e :: r.2)

/-- background.js `updateCookieStats`: run both loops and package the
counters; the second component is the in-memory history after the loop's
status overwrites. -/
def updateCookieStats (ctx : ScoreCtx) (hostname : String) (cookies : List Cookie)
    (history : List HistoryEntry) (perms : List (String × Permission)) :
    Stats × List HistoryEntry :=
  let acc1 := liveStatsLoop ctx perms cookies { keys := [], suspicious := 0, blocked := 0, allowed := 0 }
  let r := historyStatsLoop hostname perms history acc1
  ({ total := r.1.keys.length, suspicious := r.1.suspicious,
     blocked := r.1.blocked, allowed := r.1.allowed }, r.2)

/-- The background worker's cookie-history state: the in-memory Map and the
durable `chrome.storage.local` copy. -/
structure BgState where
  cookieHistory : List HistoryEntry
  storedCookieHistory : List HistoryEntry
  deriving Repr, DecidableEq

/-- `updateCookieStats` as a state transition: it rewrites the in-memory
history through the loop but contains no `saveCookieHistory` call, so the
durable copy is carried over unchanged. -/
def updateCookieStatsRun (ctx : ScoreCtx) (hostname : String) (cookies : List Cookie)
    (perms : List (String × Permission)) (st : BgState) : Stats × BgState :=
  let r := updateCookieStats ctx hostname cookies st.cookieHistory perms
  (r.1, { cookieHistory := r.2, storedCookieHistory := st.storedCookieHistory })

/- ## Message dispatcher (background.js onMessage) -/

/-- A tab descriptor as returned by `chrome.tabs.query`. -/
structure TabInfo where
  url : Option String
  deriving Repr, DecidableEq

/-- The request types of the external message API. -/
inductive MessageType where
  | contentScriptLoaded
  | openPopup
  | getActiveTab
  | updateCookiePermissions
  | getCookieStats
  | getAllCookieData
  | getAIExplanation
  deriving Repr, DecidableEq

/-- Number of `sendResponse` invocations the background `onMessage` listener
performs for a request, given the tabs the active-tab query returns.
GET_ACTIVE_TAB always responds (with `tabs[0]`, possibly undefined);
UPDATE_COOKIE_PERMISSIONS, GET_ALL_COOKIE_DATA and GET_AI_EXPLANATION respond
from handlers that swallow their internal errors; GET_COOKIE_STATS responds
only inside `if (tabs.length > 0 && tabs[0].url)` and sends nothing
otherwise. -/
def responsesSent (m : MessageType) (tabs : List TabInfo) : Nat :=
  match m with
  | .contentScriptLoaded => 0
  | .openPopup => 0
  | .getActiveTab => 1
  | .updateCookiePermissions => 1
  | .getCookieStats =>
    match tabs with
    | [] => 0
    | t :: _ =>
      match t.url with
      | some u => if u = "" then 0 else 1
      | none => 0
  | .getAllCookieData => 1
  | .getAIExplanation => 1

/- ## Stats update (popup.js updateStats) -/

namespace Popup

/-- The live-cookie loop of popup.js `updateStats`: per cookie, add its key
to the `allCookieKeys` set, count it suspicious when `analyzeCookieData`
scores it at least 3 (the permission passed to the analyzer is the one
stored for the cookie's key), and count it allowed when an allow or
non-empty custom permission exists. -/
def updateStatsLiveLoop (nowSec : Nat) (tab : Option TabCtx)
    (perms : List (String × Permission)) : List Cookie → StatsAcc → StatsAcc
  | [], acc => acc
  | c :: rest, acc =>
    let k := cookieKeyOf c.name c.domain
    let keys := if k ∈ acc.keys then acc.keys else acc.keys ++ [k]
    let analyzed := analyzeCookieData nowSec tab
      (lookupPerm perms (permKeyOf c.name c.domain)) { cookie := c }
    let suspicious := acc.suspicious + (if analyzed.riskScore ≥ 3 then 1 else 0)
    let allowed := acc.allowed + (match lookupPerm perms (permKeyOf c.name c.domain) with
      | some p =>
        if p.action == "allow" || (p.action == "custom" && !p.allowedDataTypes.isEmpty)
        then 1 else 0
      | none => 0)
    updateStatsLiveLoop nowSec tab perms rest
      { keys := keys, suspicious := suspicious, blocked := acc.blocked, allowed := allowed }

/-- The blocked-permissions loop of popup.js `updateStats`: for every stored
entry whose key starts with "cookie_" and whose record has `blocked = true`,
derive the cookie key from the record's stored name and domain, add it to
the set if new (counting it suspicious when the stored classification has at
least 3 categories — the record's `potentialData` field is always present
in our model, as it is in every record the sources write), and bump the
blocked counter unconditionally. -/
def updateStatsBlockedLoop : List (String × Permission) → StatsAcc → StatsAcc
  | [], acc => acc
  | q :: rest, acc =>
    if strStarts q.1 "cookie_" && q.2.blocked then
      let k := cookieKeyOf q.2.cookieName q.2.cookieDomain
      let newKeys := acc.keys ++ [k]
      let newSuspicious := acc.suspicious + (if q.2.potentialData.length ≥ 3 then 1 else 0)
      let acc1 := if k ∈ acc.keys then acc
        else { acc with keys := newKeys, suspicious := newSuspicious }
      updateStatsBlockedLoop rest { acc1 with blocked := acc1.blocked + 1 }
    else
      updateStatsBlockedLoop rest acc

/-- popup.js `updateStats` (lines 506-571): count the live cookies for the
current tab, then the blocked permission records, and package the counters
with the size of the deduplicated key set as total. -/
def updateStats (nowSec : Nat) (tab : Option TabCtx) (cookies : List Cookie)
    (perms : List (String × Permission)) : Stats :=
  let acc1 := updateStatsLiveLoop nowSec tab perms cookies
    { keys := [], suspicious := 0, blocked := 0, allowed := 0 }
  let acc2 := updateStatsBlockedLoop perms acc1
  { total := acc2.keys.length, suspicious := acc2.suspicious,
    blocked := acc2.blocked, allowed := acc2.allowed }

end Popup

/- ## Helper lemmas -/

theorem hasKey_eq_true_iff (keys : List String) (k : String) :
    hasKey keys k = true ↔ k ∈ keys := by
  simp [hasKey]

theorem map_filter_comm {α β : Type} (f : α → β) (p : β → Bool) :
    ∀ l : List α, (l.map f).filter p = (l.filter (fun a => p (f a))).map f := by
  intro l
  induction l with
  | nil => rfl
  | cons x xs ih =>
    simp only [List.map_cons, List.filter_cons]
    cases hp : p (f x) <;> simp [hp, ih]

theorem filter_key_eq_singleton {α : Type} (f : α → String) :
    ∀ (l : List α) (c : α), (l.map f).Nodup → c ∈ l →
      l.filter (fun x => f x == f c) = [c] := by
  intro l
  induction l with
  | nil => intro c _ h; exact absurd h (List.not_mem_nil c)
  | cons x xs ih =>
    intro c hnd hmem
    rw [List.map_cons, List.nodup_cons] at hnd
    rcases List.mem_cons.mp hmem with h | h
    · subst h
      rw [List.filter_cons]
      have hnil : xs.filter (fun y => f y == f c) = [] := by
        rw [List.filter_eq_nil_iff]
        intro a ha hcontra
        have hfa : f a = f c := by simpa using hcontra
        exact hnd.1 (hfa ▸ List.mem_map_of_mem f ha)
      simp [hnil]
    · rw [List.filter_cons]
      have hxc : (f x == f c) = false := by
        apply beq_eq_false_iff_ne.mpr
        intro he
        exact hnd.1 (he ▸ List.mem_map_of_mem f h)
      simp only [hxc]
      simpa using ih c hnd.2 h

theorem length_le_of_nodup_subset {l1 l2 : List String} (h1 : l1.Nodup) (h2 : l2.Nodup)
    (hsub : ∀ x ∈ l1, x ∈ l2) : l1.length ≤ l2.length := by
  rw [← List.toFinset_card_of_nodup h1, ← List.toFinset_card_of_nodup h2]
  exact Finset.card_le_card
    (fun x hx => List.mem_toFinset.mpr (hsub x (List.mem_toFinset.mp hx)))

theorem detectFrom_nodup (table : List (String × List String)) (s : String)
    (h : (table.map Prod.fst).Nodup) : (detectFrom table s).Nodup :=
  List.Nodup.sublist (List.Sublist.map Prod.fst (List.filter_sublist table)) h

theorem detectFrom_mem (table : List (String × List String)) (s : String) (t : String)
    (h : t ∈ detectFrom table s) : t ∈ table.map Prod.fst :=
  (List.Sublist.map Prod.fst (List.filter_sublist table)).subset h

/- ## Claim C1 -/

/-- Claim C1, counterexample: at a cookie with secure flag false, a plain
domain and an unknown active-tab domain (so the page context is certainly
not transport-secure) `calculateRiskScore` still adds the insecure bonus:
the code returns 1 where the claimed formula returns 0. -/
theorem c1_insecure_bonus_counterexample :
    calculateRiskScore ⟨"", 0⟩ ⟨"x", "x", some "", "/", false, false, "lax", none⟩ (some []) = 1 ∧
    specRiskScoreClaimed false ⟨"", 0⟩ ⟨"x", "x", some "", "/", false, false, "lax", none⟩ [] = 0 ∧
    calculateRiskScore ⟨"", 0⟩ ⟨"x", "x", some "", "/", false, false, "lax", none⟩ (some []) ≠
      specRiskScoreClaimed false ⟨"", 0⟩ ⟨"x", "x", some "", "/", false, false, "lax", none⟩ [] :=
  ⟨by decide, by decide, by decide⟩

/-- Claim C1, amended: the risk score equals category count plus cumulative
tracker-pattern bonuses plus the third-party, longevity and insecure
bonuses, where the insecure bonus is added iff the secure flag is false, the
cookie's domain is non-empty and does not start with "http" — independent of
any page transport security. -/
theorem c1_riskScore_formula_amended (ctx : ScoreCtx) (cookie : Cookie)
    (categories : List String) :
    calculateRiskScore ctx cookie (some categories) =
      specRiskScoreAmended ctx cookie categories := rfl

/- ## Claim C2 -/

/-- Claim C2, counterexample: the content-script warning path classifies the
cookie `session=x` (one category, canonical score 2) as "medium" from its
category count, while the canonical score thresholds give "low". -/
theorem c2_riskLevel_counterexample :
    (Content.analyzeCookieData ⟨"session", "a.com", some "x", "/", false, false, "lax", none⟩).riskLevel
        = "medium" ∧
    riskLevelOfScore (calculateRiskScore ⟨"a.com", 0⟩
        ⟨"session", "a.com", some "x", "/", false, false, "lax", none⟩ none) = "low" :=
  ⟨by decide, by decide⟩

/-- Claim C2, amended: the background merged view (live and history
branches) and the popup's analyzer derive the risk level from the final
score with the canonical thresholds (at least 5 high, at least 3 medium),
but the content-script warning path derives it from the category count alone
with the 3/1 thresholds. -/
theorem c2_riskLevel_thresholds_amended :
    (∀ (ctx : ScoreCtx) (history : List HistoryEntry) (perms : List (String × Permission))
        (now : Nat) (c : Cookie),
        (analyzeLive ctx history perms now c).riskLevel =
          riskLevelOfScore (analyzeLive ctx history perms now c).riskScore) ∧
    (∀ (perms : List (String × Permission)) (e : HistoryEntry),
        (analyzeHistory perms e).riskLevel =
          riskLevelOfScore (analyzeHistory perms e).riskScore) ∧
    (∀ (nowSec : Nat) (tab : Option Popup.TabCtx) (perm : Option Permission)
        (pc : Popup.PCookie),
        (Popup.analyzeCookieData nowSec tab perm pc).riskLevel =
          riskLevelOfScore (Popup.analyzeCookieData nowSec tab perm pc).riskScore) ∧
    (∀ c : Cookie, (Content.analyzeCookieData c).riskLevel =
        riskLevelOfCategoryCount (Content.detectPotentialData c).length) :=
  ⟨fun _ _ _ _ _ => rfl, fun _ _ => rfl, fun _ _ _ _ => rfl, fun _ => rfl⟩

/- ## Claim C5 -/

/-- Claim C5: a blocked (or already removed) history entry is left untouched
by the removal event; the transition to "removed" (setting `removedAt`)
happens exactly from status "active". -/
theorem c5_recordRemoval_status_precedence (e : HistoryEntry) (now : Nat) :
    (e.status = "blocked" → recordRemoval e now = e) ∧
    (e.status = "removed" → recordRemoval e now = e) ∧
    (e.status = "active" →
      recordRemoval e now = { e with status := "removed", removedAt := some now }) ∧
    ((recordRemoval e now).status = "removed" → e.status = "active" ∨ e.status = "removed") := by
  by_cases h : e.status = "active"
  · refine ⟨fun hb => absurd (h.symm.trans hb) (by decide),
      fun hr => absurd (h.symm.trans hr) (by decide),
      fun _ => by simp [recordRemoval, h],
      fun _ => Or.inl h⟩
  · refine ⟨fun _ => by simp [recordRemoval, h], fun _ => by simp [recordRemoval, h],
      fun ha => absurd ha h, fun hr => Or.inr ?_⟩
    simpa [recordRemoval, h] using hr

/-- Claim C5, witness: a concrete blocked entry is unchanged by
`recordRemoval`, and a concrete active entry transitions to "removed". -/
theorem c5_recordRemoval_status_precedence_witness :
    recordRemoval { cookie := ⟨"_ga", ".shop.com", some "1", "/", false, false, "lax", none⟩,
                    potentialData := [], riskScore := 4, firstSeen := 1, lastSeen := 2,
                    status := "blocked", blockedAt := some 3 } 9 =
      { cookie := ⟨"_ga", ".shop.com", some "1", "/", false, false, "lax", none⟩,
        potentialData := [], riskScore := 4, firstSeen := 1, lastSeen := 2,
        status := "blocked", blockedAt := some 3 } ∧
    recordRemoval { cookie := ⟨"sess", "shop.com", some "1", "/", true, false, "lax", none⟩,
                    potentialData := ["session_data"], riskScore := 1, firstSeen := 1,
                    lastSeen := 2, status := "active" } 9 =
      { cookie := ⟨"sess", "shop.com", some "1", "/", true, false, "lax", none⟩,
        potentialData := ["session_data"], riskScore := 1, firstSeen := 1,
        lastSeen := 2, status := "removed", removedAt := some 9 } :=
  ⟨(c5_recordRemoval_status_precedence _ 9).1 rfl,
   (c5_recordRemoval_status_precedence _ 9).2.2.1 rfl⟩

/- ## Claim C6 -/

/-- Claim C6: re-recording the same sighting is idempotent up to timestamps —
`firstSeen` is preserved (and is the creation time when the key was fresh),
the status after the second call equals the status after the first, and the
two results differ at most in `lastSeen`. -/
theorem c6_recordSighting_idempotent (prev : Option HistoryEntry) (c : Cookie)
    (potentialData : List String) (riskScore : Nat) (t1 t2 : Nat) :
    (recordSighting (some (recordSighting prev c potentialData riskScore t1))
        c potentialData riskScore t2).firstSeen =
      (recordSighting prev c potentialData riskScore t1).firstSeen ∧
    (recordSighting (some (recordSighting prev c potentialData riskScore t1))
        c potentialData riskScore t2).status =
      (recordSighting prev c potentialData riskScore t1).status ∧
    (recordSighting (some (recordSighting prev c potentialData riskScore t1))
        c potentialData riskScore t2) =
      { recordSighting prev c potentialData riskScore t1 with lastSeen := t2 } ∧
    (recordSighting none c potentialData riskScore t1).firstSeen = t1 :=
  ⟨rfl, rfl, rfl, rfl⟩

/- ## Claim C7 -/

/-- Claim C7: after both permission writes (the user path of
`handleCookiePermissionsUpdate` and the auto-block path of
`scanExistingCookies`), the cached `blocked` flag equals its recomputation
from the record's own `action` and `allowedDataTypes`. -/
theorem c7_permission_blocked_consistent (name domain : String)
    (pd allowedDataTypes : List String) (action : String) (now : Nat) :
    ((userPermissionRecord name domain pd allowedDataTypes action now).blocked =
      isBlocking (userPermissionRecord name domain pd allowedDataTypes action now).action
        (userPermissionRecord name domain pd allowedDataTypes action now).allowedDataTypes) ∧
    ((autoBlockPermissionRecord name domain pd now).blocked =
      isBlocking (autoBlockPermissionRecord name domain pd now).action
        (autoBlockPermissionRecord name domain pd now).allowedDataTypes) :=
  ⟨rfl, rfl⟩

/- ## Claim C8 -/

/-- Claim C8, counterexample: the three classifier instances are not
identical — on the cookie text `sid=` the background classifier detects
`session_data` while the content-script and popup classifiers detect
nothing. -/
theorem c8_classifier_not_identical_counterexample :
    Background.detectPotentialData ⟨"sid", "d", some "", "/", false, false, "lax", none⟩
        = ["session_data"] ∧
    Content.detectPotentialData ⟨"sid", "d", some "", "/", false, false, "lax", none⟩ = [] ∧
    Popup.detectPotentialData ⟨"sid", "d", some "", "/", false, false, "lax", none⟩ = [] :=
  ⟨by decide, by decide, by decide⟩

/-- Claim C8, amended: each classifier instance separately is a pure total
deterministic function of the cookie's name and value, returning a
duplicate-free category list inside the fixed 12-category vocabulary; the
background instance treats an absent value as the empty string.  (The three
instances differ from each other, and only the background instance defaults
the missing value: the other two coerce it to the string "undefined".) -/
theorem c8_classifier_pure_vocab_amended :
    (∀ c : Cookie, (Background.detectPotentialData c).Nodup ∧
        (Background.detectPotentialData c).all (fun t => hasKey categoryVocabulary t) = true) ∧
    (∀ c : Cookie, (Content.detectPotentialData c).Nodup ∧
        (Content.detectPotentialData c).all (fun t => hasKey categoryVocabulary t) = true) ∧
    (∀ c : Cookie, (Popup.detectPotentialData c).Nodup ∧
        (Popup.detectPotentialData c).all (fun t => hasKey categoryVocabulary t) = true) ∧
    (∀ c : Cookie, Background.detectPotentialData { c with value := none } =
        Background.detectPotentialData { c with value := some "" }) := by
  have hbg : ∀ x ∈ backgroundDataPatterns.map Prod.fst, hasKey categoryVocabulary x = true := by
    decide
  have hct : ∀ x ∈ contentDataPatterns.map Prod.fst, hasKey categoryVocabulary x = true := by
    decide
  have hpp : ∀ x ∈ popupDataPatterns.map Prod.fst, hasKey categoryVocabulary x = true := by
    decide
  refine ⟨fun c => ⟨detectFrom_nodup _ _ (by decide), ?_⟩,
    fun c => ⟨detectFrom_nodup _ _ (by decide), ?_⟩,
    fun c => ⟨detectFrom_nodup _ _ (by decide), ?_⟩,
    fun c => rfl⟩
  · rw [List.all_eq_true]
    intro t ht
    exact hbg t (detectFrom_mem _ _ _ ht)
  · rw [List.all_eq_true]
    intro t ht
    exact hct t (detectFrom_mem _ _ _ ht)
  · rw [List.all_eq_true]
    intro t ht
    exact hpp t (detectFrom_mem _ _ _ ht)

/- ## Claim C9 -/

/-- Claim C9: evaluation of the dispatcher at the failing input — a
GET_COOKIE_STATS request while the active-tab query returns no tab (or a tab
without a URL) sends zero responses, although e.g. GET_ALL_COOKIE_DATA
responds even then. -/
theorem c9_getCookieStats_unanswered :
    responsesSent MessageType.getCookieStats [] = 0 ∧
    responsesSent MessageType.getCookieStats [{ url := none }] = 0 ∧
    responsesSent MessageType.getAllCookieData [] = 1 :=
  ⟨rfl, rfl, rfl⟩

/- ## Claim C10 -/

theorem historyStatsLoop_snd (hostname : String) (perms : List (String × Permission)) :
    ∀ (l : List HistoryEntry) (acc : StatsAcc),
      (historyStatsLoop hostname perms l acc).2 =
        l.map (fun e => if historyDomainRelated hostname e && permBlockedFor perms e
          then { e with status := "blocked" } else e) := by
  intro l
  induction l with
  | nil => intro acc; rfl
  | cons e rest ih =>
    intro acc
    simp only [historyStatsLoop, List.map_cons]
    by_cases h1 : historyDomainRelated hostname e = true
    · by_cases h2 : permBlockedFor perms e = true
      · simp [h1, h2, ih]
      · simp [h1, h2, ih]
    · simp [h1, Bool.not_eq_true _ ▸ h1, ih]

/-- Claim C10: `updateCookieStats` is not read-only on the History Ledger —
the in-memory history after the call is the old one with exactly the entries
whose dot-stripped domain relates to the hostname and whose key carries a
blocking permission overwritten to status "blocked" (all their other fields,
`blockedAt` included, unchanged), while the durable storage copy is not
written at all. -/
theorem c10_updateCookieStats_mutates_history (ctx : ScoreCtx) (hostname : String)
    (cookies : List Cookie) (perms : List (String × Permission)) (st : BgState) :
    ((updateCookieStatsRun ctx hostname cookies perms st).2.storedCookieHistory =
      st.storedCookieHistory) ∧
    ((updateCookieStatsRun ctx hostname cookies perms st).2.cookieHistory =
      st.cookieHistory.map (fun e =>
        if historyDomainRelated hostname e && permBlockedFor perms e
        then { e with status := "blocked" } else e)) :=
  ⟨rfl, historyStatsLoop_snd hostname perms st.cookieHistory _⟩

/- ## Claim C3 -/

/-- Claim C3, counterexample: two live cookies sharing the key
("a", "b") but differing in path each produce a merged-view entry, so the
key appears twice. -/
theorem c3_dedup_counterexample :
    ((getAllCookieDataCookies ⟨"", 0⟩ "b"
        [⟨"a", "b", some "1", "/", true, false, "lax", none⟩,
         ⟨"a", "b", some "2", "/x", true, false, "lax", none⟩]
        [] [] 0).map keyA).count "a_b" = 2 := by decide

/-- Claim C3, amended: provided the live cookies have pairwise distinct
(name, domain) keys (and the history Map keys are distinct, which the Map
guarantees), the merged view of `getAllCookieData` contains every key at
most once, and for each live cookie the unique entry with its key is the
live-derived one — carrying the live cookie's data — rather than any
history entry. -/
theorem c3_merged_view_dedup_amended (ctx : ScoreCtx) (hostname : String)
    (cookies : List Cookie) (history : List HistoryEntry)
    (perms : List (String × Permission)) (now : Nat)
    (hl : (cookies.map keyC).Nodup) (hh : (history.map entryKey).Nodup) :
    ((getAllCookieDataCookies ctx hostname cookies history perms now).map keyA).Nodup ∧
    ∀ c ∈ cookies,
      (getAllCookieDataCookies ctx hostname cookies history perms now).filter
          (fun a => keyA a == keyC c) =
        [analyzeLive ctx history perms now c] := by
  have hmapLive : (cookies.map (analyzeLive ctx history perms now)).map keyA
      = cookies.map keyC := by
    rw [List.map_map]
    rfl
  have hmapHist : ((history.filter (fun e =>
        !(hasKey (cookies.map keyC) (entryKey e)) && historyDomainRelated hostname e)).map
          (analyzeHistory perms)).map keyA
      = (history.filter (fun e =>
        !(hasKey (cookies.map keyC) (entryKey e)) && historyDomainRelated hostname e)).map
          entryKey := by
    rw [List.map_map]
    rfl
  constructor
  · show ((cookies.map (analyzeLive ctx history perms now) ++ _).map keyA).Nodup
    rw [List.map_append, hmapLive, hmapHist]
    refine List.Nodup.append hl
      (List.Nodup.sublist (List.Sublist.map entryKey (List.filter_sublist history)) hh) ?_
    intro k hkA hkB
    obtain ⟨e, he, hke⟩ := List.mem_map.mp hkB
    have hpe := (List.mem_filter.mp he).2
    simp only [Bool.and_eq_true, Bool.not_eq_true', hasKey, decide_eq_false_iff_not] at hpe
    exact hpe.1 (hke ▸ hkA)
  · intro c hc
    show ((cookies.map (analyzeLive ctx history perms now)) ++ _).filter _ = _
    rw [List.filter_append]
    have h1 : (cookies.map (analyzeLive ctx history perms now)).filter
          (fun a => keyA a == keyC c) =
        (cookies.filter (fun x => keyC x == keyC c)).map (analyzeLive ctx history perms now) :=
      map_filter_comm (analyzeLive ctx history perms now) (fun a => keyA a == keyC c) cookies
    have h2 : ((history.filter (fun e =>
          !(hasKey (cookies.map keyC) (entryKey e)) && historyDomainRelated hostname e)).map
            (analyzeHistory perms)).filter (fun a => keyA a == keyC c) = [] := by
      rw [List.filter_eq_nil_iff]
      intro a ha hpa
      obtain ⟨e, he, hke⟩ := List.mem_map.mp ha
      have hpe := (List.mem_filter.mp he).2
      simp only [Bool.and_eq_true, Bool.not_eq_true', hasKey, decide_eq_false_iff_not] at hpe
      have hkey : entryKey e = keyC c := by
        have : keyA a = keyC c := by simpa using hpa
        rw [← hke] at this
        exact this
      exact hpe.1 (by rw [hkey]; exact List.mem_map_of_mem keyC hc)
    rw [h1, filter_key_eq_singleton keyC cookies c hl hc, h2]
    simp

/-- Claim C3, witness: the amended dedup theorem applied to one concrete
live cookie shadowing a blocked history entry with the same key. -/
theorem c3_merged_view_dedup_witness :
    (getAllCookieDataCookies ⟨"shop.com", 0⟩ "shop.com"
        [⟨"uid", "shop.com", some "42", "/", true, false, "lax", none⟩]
        [{ cookie := ⟨"uid", "shop.com", some "old", "/", true, false, "lax", none⟩,
           potentialData := [], riskScore := 4, firstSeen := 1, lastSeen := 2,
           status := "blocked", blockedAt := some 3 }]
        [] 0).filter
      (fun a => keyA a == keyC ⟨"uid", "shop.com", some "42", "/", true, false, "lax", none⟩) =
    [analyzeLive ⟨"shop.com", 0⟩
        [{ cookie := ⟨"uid", "shop.com", some "old", "/", true, false, "lax", none⟩,
           potentialData := [], riskScore := 4, firstSeen := 1, lastSeen := 2,
           status := "blocked", blockedAt := some 3 }]
        [] 0 ⟨"uid", "shop.com", some "42", "/", true, false, "lax", none⟩] :=
  (c3_merged_view_dedup_amended ⟨"shop.com", 0⟩ "shop.com"
      [⟨"uid", "shop.com", some "42", "/", true, false, "lax", none⟩]
      [{ cookie := ⟨"uid", "shop.com", some "old", "/", true, false, "lax", none⟩,
         potentialData := [], riskScore := 4, firstSeen := 1, lastSeen := 2,
         status := "blocked", blockedAt := some 3 }]
      [] 0 (by decide) (by decide)).2
    ⟨"uid", "shop.com", some "42", "/", true, false, "lax", none⟩ (by decide)

/- ## Claim C4 -/

theorem liveStatsLoop_spec (ctx : ScoreCtx) (perms : List (String × Permission)) :
    ∀ (cs : List Cookie) (acc : StatsAcc),
      (cs.map keyC).Nodup → (∀ c ∈ cs, keyC c ∉ acc.keys) →
      (liveStatsLoop ctx perms cs acc).keys = acc.keys ++ cs.map keyC ∧
      (liveStatsLoop ctx perms cs acc).suspicious ≤ acc.suspicious + cs.length ∧
      (liveStatsLoop ctx perms cs acc).allowed ≤ acc.allowed + cs.length ∧
      (liveStatsLoop ctx perms cs acc).blocked = acc.blocked := by
  intro cs
  induction cs with
  | nil =>
    intro acc _ _
    exact ⟨by simp [liveStatsLoop], by simp [liveStatsLoop], by simp [liveStatsLoop], rfl⟩
  | cons c rest ih =>
    intro acc hnd hdisj
    rw [List.map_cons, List.nodup_cons] at hnd
    have hkc : cookieKeyOf c.name c.domain ∉ acc.keys := hdisj c (List.mem_cons_self c rest)
    have hstep : liveStatsLoop ctx perms (c :: rest) acc =
        liveStatsLoop ctx perms rest
          { keys := acc.keys ++ [cookieKeyOf c.name c.domain],
            suspicious := acc.suspicious +
              (if calculateRiskScore ctx c (some (Background.detectPotentialData c)) ≥ 3
               then 1 else 0),
            blocked := acc.blocked,
            allowed := acc.allowed +
              (match lookupPerm perms (permKeyOf c.name c.domain) with
               | some p =>
                 if p.action == "allow" || (p.action == "custom" && !p.allowedDataTypes.isEmpty)
                 then 1 else 0
               | none => 0) } := by
      simp only [liveStatsLoop]
      rw [if_neg hkc]
    rw [hstep]
    have hdisj2 : ∀ x ∈ rest, keyC x ∉ acc.keys ++ [cookieKeyOf c.name c.domain] := by
      intro x hx hmem
      rcases List.mem_append.mp hmem with h | h
      · exact hdisj x (List.mem_cons_of_mem c hx) h
      · have hx2 : keyC x = keyC c := by simpa using h
        exact hnd.1 (hx2 ▸ List.mem_map_of_mem keyC hx)
    obtain ⟨ihk, ihs, iha, ihb⟩ := ih
      { keys := acc.keys ++ [cookieKeyOf c.name c.domain],
        suspicious := acc.suspicious +
          (if calculateRiskScore ctx c (some (Background.detectPotentialData c)) ≥ 3
           then 1 else 0),
        blocked := acc.blocked,
        allowed := acc.allowed +
          (match lookupPerm perms (permKeyOf c.name c.domain) with
           | some p =>
             if p.action == "allow" || (p.action == "custom" && !p.allowedDataTypes.isEmpty)
             then 1 else 0
           | none => 0) } hnd.2 hdisj2
    dsimp only at ihk ihs iha ihb
    have hif1 : (if calculateRiskScore ctx c (some (Background.detectPotentialData c)) ≥ 3
        then 1 else 0) ≤ 1 := by split <;> omega
    have hif2 : (match lookupPerm perms (permKeyOf c.name c.domain) with
        | some p =>
          if p.action == "allow" || (p.action == "custom" && !p.allowedDataTypes.isEmpty)
          then 1 else 0
        | none => 0) ≤ 1 := by
      cases lookupPerm perms (permKeyOf c.name c.domain) with
      | none => dsimp only; omega
      | some p => dsimp only; split <;> omega
    refine ⟨?_, ?_, ?_, ?_⟩
    · rw [ihk]
      simp [List.append_assoc, keyC]
    · simp only [List.length_cons]
      omega
    · simp only [List.length_cons]
      omega
    · rw [ihb]

theorem historyStatsLoop_spec (hostname : String) (perms : List (String × Permission)) :
    ∀ (l : List HistoryEntry) (acc : StatsAcc),
      (l.map entryKey).Nodup → acc.keys.Nodup →
      ((historyStatsLoop hostname perms l acc).1.keys.Nodup) ∧
      (∃ ext, (historyStatsLoop hostname perms l acc).1.keys = acc.keys ++ ext) ∧
      ((historyStatsLoop hostname perms l acc).1.suspicious + acc.keys.length ≤
        acc.suspicious + (historyStatsLoop hostname perms l acc).1.keys.length) ∧
      ((historyStatsLoop hostname perms l acc).1.allowed = acc.allowed) ∧
      ((historyStatsLoop hostname perms l acc).1.blocked ≤ acc.blocked +
        (l.filter (fun e => historyDomainRelated hostname e && permBlockedFor perms e)).length) ∧
      (∀ e ∈ l, historyDomainRelated hostname e = true →
        entryKey e ∈ (historyStatsLoop hostname perms l acc).1.keys) := by
  intro l
  induction l with
  | nil =>
    intro acc _ hk
    refine ⟨hk, ⟨[], by simp [historyStatsLoop]⟩, by simp [historyStatsLoop], rfl,
      by simp [historyStatsLoop], ?_⟩
    intro e he
    exact absurd he (List.not_mem_nil e)
  | cons e rest ih =>
    intro acc hnd hk
    rw [List.map_cons, List.nodup_cons] at hnd
    by_cases hrel : historyDomainRelated hostname e = true
    · by_cases hmem : entryKey e ∈ acc.keys
      · by_cases hb : permBlockedFor perms e = true
        · -- related, key present, blocking permission
          have hstep : historyStatsLoop hostname perms (e :: rest) acc =
              ((historyStatsLoop hostname perms rest { acc with blocked := acc.blocked + 1 }).1,
               { e with status := "blocked" } ::
                 (historyStatsLoop hostname perms rest { acc with blocked := acc.blocked + 1 }).2) := by
            simp only [historyStatsLoop]
            rw [if_pos hrel, if_pos hmem, if_pos hb]
          rw [hstep]
          dsimp only
          obtain ⟨ih1, ⟨ext, ih2⟩, ih3, ih4, ih5, ih6⟩ :=
            ih { acc with blocked := acc.blocked + 1 } hnd.2 hk
          dsimp only at ih1 ih2 ih3 ih4 ih5 ih6
          rw [List.filter_cons_of_pos (by simp [hrel, hb])]
          refine ⟨ih1, ⟨ext, ih2⟩, ih3, ih4, ?_, ?_⟩
          · simp only [List.length_cons]
            omega
          · intro x hx hrelx
            rcases List.mem_cons.mp hx with h | h
            · subst h
              rw [ih2]
              exact List.mem_append_left ext hmem
            · exact ih6 x h hrelx
        · -- related, key present, no blocking permission
          have hstep : historyStatsLoop hostname perms (e :: rest) acc =
              ((historyStatsLoop hostname perms rest acc).1,
               e :: (historyStatsLoop hostname perms rest acc).2) := by
            simp only [historyStatsLoop]
            rw [if_pos hrel, if_pos hmem, if_neg hb]
          rw [hstep]
          dsimp only
          obtain ⟨ih1, ⟨ext, ih2⟩, ih3, ih4, ih5, ih6⟩ := ih acc hnd.2 hk
          rw [List.filter_cons_of_neg (by simp [hb])]
          refine ⟨ih1, ⟨ext, ih2⟩, ih3, ih4, ih5, ?_⟩
          intro x hx hrelx
          rcases List.mem_cons.mp hx with h | h
          · subst h
            rw [ih2]
            exact List.mem_append_left ext hmem
          · exact ih6 x h hrelx
      · -- related, new key
        have hknew : (acc.keys ++ [entryKey e]).Nodup := by
          refine List.Nodup.append hk (List.nodup_singleton _) ?_
          intro a ha hmem2
          rw [List.mem_singleton] at hmem2
          exact hmem (hmem2 ▸ ha)
        by_cases hb : permBlockedFor perms e = true
        · have hstep : historyStatsLoop hostname perms (e :: rest) acc =
              ((historyStatsLoop hostname perms rest
                  { keys := acc.keys ++ [entryKey e],
                    suspicious := acc.suspicious + (if e.riskScore ≥ 3 then 1 else 0),
                    blocked := acc.blocked + 1, allowed := acc.allowed }).1,
               { e with status := "blocked" } ::
                 (historyStatsLoop hostname perms rest
                   { keys := acc.keys ++ [entryKey e],
                     suspicious := acc.suspicious + (if e.riskScore ≥ 3 then 1 else 0),
                     blocked := acc.blocked + 1, allowed := acc.allowed }).2) := by
            simp only [historyStatsLoop]
            rw [if_pos hrel, if_neg hmem, if_pos hb]
          rw [hstep]
          dsimp only
          obtain ⟨ih1, ⟨ext, ih2⟩, ih3, ih4, ih5, ih6⟩ :=
            ih { keys := acc.keys ++ [entryKey e],
                 suspicious := acc.suspicious + (if e.riskScore ≥ 3 then 1 else 0),
                 blocked := acc.blocked + 1, allowed := acc.allowed } hnd.2 hknew
          dsimp only at ih1 ih2 ih3 ih4 ih5 ih6
          rw [List.filter_cons_of_pos (by simp [hrel, hb])]
          have hB : (if e.riskScore ≥ 3 then 1 else 0) ≤ 1 := by split <;> omega
          have hlen : (acc.keys ++ [entryKey e]).length = acc.keys.length + 1 := by
            simp
          rw [hlen] at ih3
          refine ⟨ih1, ⟨[entryKey e] ++ ext, by rw [ih2, List.append_assoc]⟩, by omega, ih4,
            ?_, ?_⟩
          · simp only [List.length_cons]
            omega
          · intro x hx hrelx
            rcases List.mem_cons.mp hx with h | h
            · subst h
              rw [ih2]
              exact List.mem_append_left ext
                (List.mem_append_right acc.keys (List.mem_singleton_self _))
            · exact ih6 x h hrelx
        · have hstep : historyStatsLoop hostname perms (e :: rest) acc =
              ((historyStatsLoop hostname perms rest
                  { keys := acc.keys ++ [entryKey e],
                    suspicious := acc.suspicious + (if e.riskScore ≥ 3 then 1 else 0),
                    blocked := acc.blocked, allowed := acc.allowed }).1,
               e :: (historyStatsLoop hostname perms rest
                   { keys := acc.keys ++ [entryKey e],
                     suspicious := acc.suspicious + (if e.riskScore ≥ 3 then 1 else 0),
                     blocked := acc.blocked, allowed := acc.allowed }).2) := by
            simp only [historyStatsLoop]
            rw [if_pos hrel, if_neg hmem, if_neg hb]
          rw [hstep]
          dsimp only
          obtain ⟨ih1, ⟨ext, ih2⟩, ih3, ih4, ih5, ih6⟩ :=
            ih { keys := acc.keys ++ [entryKey e],
                 suspicious := acc.suspicious + (if e.riskScore ≥ 3 then 1 else 0),
                 blocked := acc.blocked, allowed := acc.allowed } hnd.2 hknew
          dsimp only at ih1 ih2 ih3 ih4 ih5 ih6
          rw [List.filter_cons_of_neg (by simp [hb])]
          have hB : (if e.riskScore ≥ 3 then 1 else 0) ≤ 1 := by split <;> omega
          have hlen : (acc.keys ++ [entryKey e]).length = acc.keys.length + 1 := by
            simp
          rw [hlen] at ih3
          refine ⟨ih1, ⟨[entryKey e] ++ ext, by rw [ih2, List.append_assoc]⟩, by omega, ih4,
            ih5, ?_⟩
          intro x hx hrelx
          rcases List.mem_cons.mp hx with h | h
          · subst h
            rw [ih2]
            exact List.mem_append_left ext
              (List.mem_append_right acc.keys (List.mem_singleton_self _))
          · exact ih6 x h hrelx
    · -- unrelated entry: accumulator untouched
      have hstep : historyStatsLoop hostname perms (e :: rest) acc =
          ((historyStatsLoop hostname perms rest acc).1,
           e :: (historyStatsLoop hostname perms rest acc).2) := by
        simp only [historyStatsLoop]
        rw [if_neg hrel]
      rw [hstep]
      dsimp only
      obtain ⟨ih1, ⟨ext, ih2⟩, ih3, ih4, ih5, ih6⟩ := ih acc hnd.2 hk
      rw [List.filter_cons_of_neg (by simp [hrel])]
      refine ⟨ih1, ⟨ext, ih2⟩, ih3, ih4, ih5, ?_⟩
      intro x hx hrelx
      rcases List.mem_cons.mp hx with h | h
      · subst h
        exact absurd hrelx hrel
      · exact ih6 x h hrelx

theorem permKeyOf_eq_append (name domain : String) :
    permKeyOf name domain = "cookie_" ++ cookieKeyOf name domain := by
  apply String.ext
  simp [permKeyOf, cookieKeyOf, String.data_append]

theorem blocked_perm_keys_nodup (perms : List (String × Permission))
    (hpk : (perms.map Prod.fst).Nodup)
    (hpwf : ∀ q ∈ perms, q.1 = permKeyOf q.2.cookieName q.2.cookieDomain) :
    ((perms.filter (fun q => strStarts q.1 "cookie_" && q.2.blocked)).map
      (fun q => cookieKeyOf q.2.cookieName q.2.cookieDomain)).Nodup := by
  have hfsub : (perms.filter (fun q => strStarts q.1 "cookie_" && q.2.blocked)).Sublist perms :=
    List.filter_sublist perms
  have hfstnd : ((perms.filter (fun q => strStarts q.1 "cookie_" && q.2.blocked)).map
      Prod.fst).Nodup :=
    List.Nodup.sublist (List.Sublist.map Prod.fst hfsub) hpk
  have hlnd : (perms.filter (fun q => strStarts q.1 "cookie_" && q.2.blocked)).Nodup :=
    List.Nodup.of_map Prod.fst hfstnd
  have hinj := List.inj_on_of_nodup_map hfstnd
  refine List.Nodup.map_on ?_ hlnd
  intro x hx y hy hxy
  have hx2 := hpwf x (hfsub.subset hx)
  have hy2 := hpwf y (hfsub.subset hy)
  apply hinj hx hy
  rw [hx2, hy2, permKeyOf_eq_append, permKeyOf_eq_append, hxy]

theorem popupLiveLoop_spec (nowSec : Nat) (tab : Option Popup.TabCtx)
    (perms : List (String × Permission)) :
    ∀ (cs : List Cookie) (acc : StatsAcc),
      (cs.map keyC).Nodup → (∀ c ∈ cs, keyC c ∉ acc.keys) →
      (Popup.updateStatsLiveLoop nowSec tab perms cs acc).keys = acc.keys ++ cs.map keyC ∧
      (Popup.updateStatsLiveLoop nowSec tab perms cs acc).suspicious ≤
        acc.suspicious + cs.length ∧
      (Popup.updateStatsLiveLoop nowSec tab perms cs acc).allowed ≤ acc.allowed + cs.length ∧
      (Popup.updateStatsLiveLoop nowSec tab perms cs acc).blocked = acc.blocked := by
  intro cs
  induction cs with
  | nil =>
    intro acc _ _
    exact ⟨by simp [Popup.updateStatsLiveLoop], by simp [Popup.updateStatsLiveLoop],
      by simp [Popup.updateStatsLiveLoop], rfl⟩
  | cons c rest ih =>
    intro acc hnd hdisj
    rw [List.map_cons, List.nodup_cons] at hnd
    have hkc : cookieKeyOf c.name c.domain ∉ acc.keys := hdisj c (List.mem_cons_self c rest)
    have hstep : Popup.updateStatsLiveLoop nowSec tab perms (c :: rest) acc =
        Popup.updateStatsLiveLoop nowSec tab perms rest
          { keys := acc.keys ++ [cookieKeyOf c.name c.domain],
            suspicious := acc.suspicious +
              (if (Popup.analyzeCookieData nowSec tab
                    (lookupPerm perms (permKeyOf c.name c.domain)) { cookie := c }).riskScore ≥ 3
               then 1 else 0),
            blocked := acc.blocked,
            allowed := acc.allowed +
              (match lookupPerm perms (permKeyOf c.name c.domain) with
               | some p =>
                 if p.action == "allow" || (p.action == "custom" && !p.allowedDataTypes.isEmpty)
                 then 1 else 0
               | none => 0) } := by
      simp only [Popup.updateStatsLiveLoop]
      rw [if_neg hkc]
    rw [hstep]
    have hdisj2 : ∀ x ∈ rest, keyC x ∉ acc.keys ++ [cookieKeyOf c.name c.domain] := by
      intro x hx hmem
      rcases List.mem_append.mp hmem with h | h
      · exact hdisj x (List.mem_cons_of_mem c hx) h
      · have hx2 : keyC x = keyC c := by simpa using h
        exact hnd.1 (hx2 ▸ List.mem_map_of_mem keyC hx)
    obtain ⟨ihk, ihs, iha, ihb⟩ := ih
      { keys := acc.keys ++ [cookieKeyOf c.name c.domain],
        suspicious := acc.suspicious +
          (if (Popup.analyzeCookieData nowSec tab
                (lookupPerm perms (permKeyOf c.name c.domain)) { cookie := c }).riskScore ≥ 3
           then 1 else 0),
        blocked := acc.blocked,
        allowed := acc.allowed +
          (match lookupPerm perms (permKeyOf c.name c.domain) with
           | some p =>
             if p.action == "allow" || (p.action == "custom" && !p.allowedDataTypes.isEmpty)
             then 1 else 0
           | none => 0) } hnd.2 hdisj2
    dsimp only at ihk ihs iha ihb
    have hif1 : (if (Popup.analyzeCookieData nowSec tab
          (lookupPerm perms (permKeyOf c.name c.domain)) { cookie := c }).riskScore ≥ 3
        then 1 else 0) ≤ 1 := by split <;> omega
    have hif2 : (match lookupPerm perms (permKeyOf c.name c.domain) with
        | some p =>
          if p.action == "allow" || (p.action == "custom" && !p.allowedDataTypes.isEmpty)
          then 1 else 0
        | none => 0) ≤ 1 := by
      cases lookupPerm perms (permKeyOf c.name c.domain) with
      | none => dsimp only; omega
      | some p => dsimp only; split <;> omega
    refine ⟨?_, ?_, ?_, ?_⟩
    · rw [ihk]
      simp [List.append_assoc, keyC]
    · simp only [List.length_cons]
      omega
    · simp only [List.length_cons]
      omega
    · rw [ihb]

theorem popupBlockedLoop_spec :
    ∀ (l : List (String × Permission)) (acc : StatsAcc),
      acc.keys.Nodup →
      ((Popup.updateStatsBlockedLoop l acc).keys.Nodup) ∧
      (∃ ext, (Popup.updateStatsBlockedLoop l acc).keys = acc.keys ++ ext) ∧
      ((Popup.updateStatsBlockedLoop l acc).suspicious + acc.keys.length ≤
        acc.suspicious + (Popup.updateStatsBlockedLoop l acc).keys.length) ∧
      ((Popup.updateStatsBlockedLoop l acc).allowed = acc.allowed) ∧
      ((Popup.updateStatsBlockedLoop l acc).blocked ≤ acc.blocked +
        (l.filter (fun q => strStarts q.1 "cookie_" && q.2.blocked)).length) ∧
      (∀ q ∈ l, (strStarts q.1 "cookie_" && q.2.blocked) = true →
        cookieKeyOf q.2.cookieName q.2.cookieDomain ∈
          (Popup.updateStatsBlockedLoop l acc).keys) := by
  intro l
  induction l with
  | nil =>
    intro acc hk
    refine ⟨hk, ⟨[], by simp [Popup.updateStatsBlockedLoop]⟩,
      by simp [Popup.updateStatsBlockedLoop], rfl,
      by simp [Popup.updateStatsBlockedLoop], ?_⟩
    intro q hq
    exact absurd hq (List.not_mem_nil q)
  | cons q rest ih =>
    intro acc hk
    by_cases hP : (strStarts q.1 "cookie_" && q.2.blocked) = true
    · by_cases hmem : cookieKeyOf q.2.cookieName q.2.cookieDomain ∈ acc.keys
      · have hstep : Popup.updateStatsBlockedLoop (q :: rest) acc =
            Popup.updateStatsBlockedLoop rest { acc with blocked := acc.blocked + 1 } := by
          simp only [Popup.updateStatsBlockedLoop]
          rw [if_pos hP, if_pos hmem]
        rw [hstep]
        obtain ⟨ih1, ⟨ext, ih2⟩, ih3, ih4, ih5, ih6⟩ :=
          ih { acc with blocked := acc.blocked + 1 } hk
        dsimp only at ih1 ih2 ih3 ih4 ih5 ih6
        have hfc : List.filter
            (fun r : String × Permission => strStarts r.1 "cookie_" && r.2.blocked) (q :: rest) =
            q :: List.filter
              (fun r : String × Permission => strStarts r.1 "cookie_" && r.2.blocked) rest :=
          List.filter_cons_of_pos hP
        rw [hfc]
        refine ⟨ih1, ⟨ext, ih2⟩, ih3, ih4, ?_, ?_⟩
        · simp only [List.length_cons]
          omega
        · intro x hx hPx
          rcases List.mem_cons.mp hx with h | h
          · subst h
            rw [ih2]
            exact List.mem_append_left ext hmem
          · exact ih6 x h hPx
      · have hknew : (acc.keys ++ [cookieKeyOf q.2.cookieName q.2.cookieDomain]).Nodup := by
          refine List.Nodup.append hk (List.nodup_singleton _) ?_
          intro a ha hmem2
          rw [List.mem_singleton] at hmem2
          exact hmem (hmem2 ▸ ha)
        have hstep : Popup.updateStatsBlockedLoop (q :: rest) acc =
            Popup.updateStatsBlockedLoop rest
              { keys := acc.keys ++ [cookieKeyOf q.2.cookieName q.2.cookieDomain],
                suspicious := acc.suspicious + (if q.2.potentialData.length ≥ 3 then 1 else 0),
                blocked := acc.blocked + 1, allowed := acc.allowed } := by
          simp only [Popup.updateStatsBlockedLoop]
          rw [if_pos hP, if_neg hmem]
        rw [hstep]
        obtain ⟨ih1, ⟨ext, ih2⟩, ih3, ih4, ih5, ih6⟩ :=
          ih { keys := acc.keys ++ [cookieKeyOf q.2.cookieName q.2.cookieDomain],
               suspicious := acc.suspicious + (if q.2.potentialData.length ≥ 3 then 1 else 0),
               blocked := acc.blocked + 1, allowed := acc.allowed } hknew
        dsimp only at ih1 ih2 ih3 ih4 ih5 ih6
        have hfc : List.filter
            (fun r : String × Permission => strStarts r.1 "cookie_" && r.2.blocked) (q :: rest) =
            q :: List.filter
              (fun r : String × Permission => strStarts r.1 "cookie_" && r.2.blocked) rest :=
          List.filter_cons_of_pos hP
        rw [hfc]
        have hB : (if q.2.potentialData.length ≥ 3 then 1 else 0) ≤ 1 := by split <;> omega
        have hlen : (acc.keys ++ [cookieKeyOf q.2.cookieName q.2.cookieDomain]).length
            = acc.keys.length + 1 := by simp
        rw [hlen] at ih3
        refine ⟨ih1, ⟨[cookieKeyOf q.2.cookieName q.2.cookieDomain] ++ ext,
          by rw [ih2, List.append_assoc]⟩, by omega, ih4, ?_, ?_⟩
        · simp only [List.length_cons]
          omega
        · intro x hx hPx
          rcases List.mem_cons.mp hx with h | h
          · subst h
            rw [ih2]
            exact List.mem_append_left ext
              (List.mem_append_right acc.keys (List.mem_singleton_self _))
          · exact ih6 x h hPx
    · have hstep : Popup.updateStatsBlockedLoop (q :: rest) acc =
          Popup.updateStatsBlockedLoop rest acc := by
        simp only [Popup.updateStatsBlockedLoop]
        rw [if_neg hP]
      rw [hstep]
      obtain ⟨ih1, ⟨ext, ih2⟩, ih3, ih4, ih5, ih6⟩ := ih acc hk
      have hfc : List.filter
          (fun r : String × Permission => strStarts r.1 "cookie_" && r.2.blocked) (q :: rest) =
          List.filter
            (fun r : String × Permission => strStarts r.1 "cookie_" && r.2.blocked) rest :=
        List.filter_cons_of_neg hP
      rw [hfc]
      refine ⟨ih1, ⟨ext, ih2⟩, ih3, ih4, ih5, ?_⟩
      intro x hx hPx
      rcases List.mem_cons.mp hx with h | h
      · subst h
        exact absurd hPx hP
      · exact ih6 x h hPx

/-- Claim C4, counterexample: two live cookies sharing the key ("aduid", "b")
(differing in path) are each counted suspicious (score 4 each), while the
deduplicated key set has one element: suspicious = 2 exceeds total = 1. -/
theorem c4_stats_counterexample :
    (updateCookieStats ⟨"", 0⟩ "b"
        [⟨"aduid", "b", some "", "/", false, false, "lax", none⟩,
         ⟨"aduid", "b", some "", "/x", false, false, "lax", none⟩]
        [] []).1 = ⟨1, 2, 0, 0⟩ ∧
    ¬ ((updateCookieStats ⟨"", 0⟩ "b"
        [⟨"aduid", "b", some "", "/", false, false, "lax", none⟩,
         ⟨"aduid", "b", some "", "/x", false, false, "lax", none⟩]
        [] []).1.suspicious ≤
       (updateCookieStats ⟨"", 0⟩ "b"
        [⟨"aduid", "b", some "", "/", false, false, "lax", none⟩,
         ⟨"aduid", "b", some "", "/x", false, false, "lax", none⟩]
        [] []).1.total) :=
  ⟨by decide, by decide⟩

/-- Claim C4, amended: provided the live cookies have pairwise distinct
(name, domain) keys (and the history Map keys are distinct, which the Map
guarantees), the stats computed by the background `updateCookieStats`
satisfy suspicious ≤ total, blocked ≤ total and allowed ≤ total, with total
the number of distinct keys of the merged view; and the popup's
`updateStats` satisfies the same three bounds whenever the persisted
sync-storage object additionally has distinct keys with every permission
record stored under the key derived from its own cookie name and domain
(which every write in the sources maintains). -/
theorem c4_stats_bounds_amended (ctx : ScoreCtx) (hostname : String) (nowSec : Nat)
    (tab : Option Popup.TabCtx) (cookies : List Cookie) (history : List HistoryEntry)
    (perms : List (String × Permission))
    (hl : (cookies.map keyC).Nodup) (hh : (history.map entryKey).Nodup) :
    ((updateCookieStats ctx hostname cookies history perms).1.suspicious ≤
        (updateCookieStats ctx hostname cookies history perms).1.total ∧
      (updateCookieStats ctx hostname cookies history perms).1.blocked ≤
        (updateCookieStats ctx hostname cookies history perms).1.total ∧
      (updateCookieStats ctx hostname cookies history perms).1.allowed ≤
        (updateCookieStats ctx hostname cookies history perms).1.total) ∧
    ((perms.map Prod.fst).Nodup →
      (∀ q ∈ perms, q.1 = permKeyOf q.2.cookieName q.2.cookieDomain) →
      (Popup.updateStats nowSec tab cookies perms).suspicious ≤
          (Popup.updateStats nowSec tab cookies perms).total ∧
        (Popup.updateStats nowSec tab cookies perms).blocked ≤
          (Popup.updateStats nowSec tab cookies perms).total ∧
        (Popup.updateStats nowSec tab cookies perms).allowed ≤
          (Popup.updateStats nowSec tab cookies perms).total) := by
  constructor
  · obtain ⟨hlk, hls, hla, hlb⟩ :=
      liveStatsLoop_spec ctx perms cookies ⟨[], 0, 0, 0⟩ hl (by simp)
    dsimp only at hlk hls hla hlb
    rw [List.nil_append] at hlk
    have hLnodup : (liveStatsLoop ctx perms cookies ⟨[], 0, 0, 0⟩).keys.Nodup := by
      rw [hlk]; exact hl
    obtain ⟨hh1, ⟨ext, hh2⟩, hh3, hh4, hh5, hh6⟩ :=
      historyStatsLoop_spec hostname perms history
        (liveStatsLoop ctx perms cookies ⟨[], 0, 0, 0⟩) hh hLnodup
    have hLlen : (liveStatsLoop ctx perms cookies ⟨[], 0, 0, 0⟩).keys.length
        = cookies.length := by
      rw [hlk, List.length_map]
    have hRlen := congrArg List.length hh2
    rw [List.length_append] at hRlen
    have hFnodup : ((history.filter
        (fun e => historyDomainRelated hostname e && permBlockedFor perms e)).map
          entryKey).Nodup :=
      List.Nodup.sublist (List.Sublist.map entryKey (List.filter_sublist history)) hh
    have hFsub : ∀ x ∈ (history.filter
        (fun e => historyDomainRelated hostname e && permBlockedFor perms e)).map entryKey,
        x ∈ (historyStatsLoop hostname perms history
          (liveStatsLoop ctx perms cookies ⟨[], 0, 0, 0⟩)).1.keys := by
      intro x hx
      obtain ⟨f, hf, hfe⟩ := List.mem_map.mp hx
      have hPf := (List.mem_filter.mp hf).2
      rw [Bool.and_eq_true] at hPf
      have hrelf : historyDomainRelated hostname f = true := hPf.1
      exact hfe ▸ hh6 f (List.mem_of_mem_filter hf) hrelf
    have hFle := length_le_of_nodup_subset hFnodup hh1 hFsub
    rw [List.length_map] at hFle
    refine ⟨?_, ?_, ?_⟩ <;> simp only [updateCookieStats] <;> omega
  · intro hpk hpwf
    obtain ⟨plk, pls, pla, plb⟩ :=
      popupLiveLoop_spec nowSec tab perms cookies ⟨[], 0, 0, 0⟩ hl (by simp)
    dsimp only at plk pls pla plb
    rw [List.nil_append] at plk
    have hPnodup :
        (Popup.updateStatsLiveLoop nowSec tab perms cookies ⟨[], 0, 0, 0⟩).keys.Nodup := by
      rw [plk]; exact hl
    obtain ⟨pb1, ⟨ext2, pb2⟩, pb3, pb4, pb5, pb6⟩ :=
      popupBlockedLoop_spec perms
        (Popup.updateStatsLiveLoop nowSec tab perms cookies ⟨[], 0, 0, 0⟩) hPnodup
    have hPlen :
        (Popup.updateStatsLiveLoop nowSec tab perms cookies ⟨[], 0, 0, 0⟩).keys.length
        = cookies.length := by
      rw [plk, List.length_map]
    have hRlen2 := congrArg List.length pb2
    rw [List.length_append] at hRlen2
    have hFnd := blocked_perm_keys_nodup perms hpk hpwf
    have hFsub2 : ∀ x ∈ (perms.filter (fun q => strStarts q.1 "cookie_" && q.2.blocked)).map
        (fun q => cookieKeyOf q.2.cookieName q.2.cookieDomain),
        x ∈ (Popup.updateStatsBlockedLoop perms
          (Popup.updateStatsLiveLoop nowSec tab perms cookies ⟨[], 0, 0, 0⟩)).keys := by
      intro x hx
      obtain ⟨f, hf, hfe⟩ := List.mem_map.mp hx
      have hPf := (List.mem_filter.mp hf).2
      exact hfe ▸ pb6 f (List.mem_of_mem_filter hf) hPf
    have hFle2 := length_le_of_nodup_subset hFnd pb1 hFsub2
    rw [List.length_map] at hFle2
    refine ⟨?_, ?_, ?_⟩ <;> simp only [Popup.updateStats] <;> omega

/-- Claim C4, witness: the amended bounds at a concrete site with one live
cookie, one related active history entry and a blocking permission record,
for both the background and the popup stats update. -/
theorem c4_stats_bounds_witness :
    (updateCookieStats ⟨"shop.com", 0⟩ "shop.com"
        [⟨"sess", "shop.com", some "1", "/", true, false, "lax", none⟩]
        [{ cookie := ⟨"_ga", ".shop.com", some "123", "/", false, false, "lax", none⟩,
           potentialData := [], riskScore := 4, firstSeen := 1, lastSeen := 2,
           status := "active" }]
        [("cookie__ga_.shop.com",
          { allowedDataTypes := [], action := "block", timestamp := 3,
            cookieName := "_ga", cookieDomain := ".shop.com", potentialData := [],
            blocked := true })]).1.blocked ≤
      (updateCookieStats ⟨"shop.com", 0⟩ "shop.com"
        [⟨"sess", "shop.com", some "1", "/", true, false, "lax", none⟩]
        [{ cookie := ⟨"_ga", ".shop.com", some "123", "/", false, false, "lax", none⟩,
           potentialData := [], riskScore := 4, firstSeen := 1, lastSeen := 2,
           status := "active" }]
        [("cookie__ga_.shop.com",
          { allowedDataTypes := [], action := "block", timestamp := 3,
            cookieName := "_ga", cookieDomain := ".shop.com", potentialData := [],
            blocked := true })]).1.total ∧
    (Popup.updateStats 0 (some ⟨"https://shop.com/", "shop.com"⟩)
        [⟨"sess", "shop.com", some "1", "/", true, false, "lax", none⟩]
        [("cookie__ga_.shop.com",
          { allowedDataTypes := [], action := "block", timestamp := 3,
            cookieName := "_ga", cookieDomain := ".shop.com", potentialData := [],
            blocked := true })]).blocked ≤
      (Popup.updateStats 0 (some ⟨"https://shop.com/", "shop.com"⟩)
        [⟨"sess", "shop.com", some "1", "/", true, false, "lax", none⟩]
        [("cookie__ga_.shop.com",
          { allowedDataTypes := [], action := "block", timestamp := 3,
            cookieName := "_ga", cookieDomain := ".shop.com", potentialData := [],
            blocked := true })]).total :=
  ⟨(c4_stats_bounds_amended ⟨"shop.com", 0⟩ "shop.com" 0
      (some ⟨"https://shop.com/", "shop.com"⟩)
      [⟨"sess", "shop.com", some "1", "/", true, false, "lax", none⟩]
      [{ cookie := ⟨"_ga", ".shop.com", some "123", "/", false, false, "lax", none⟩,
         potentialData := [], riskScore := 4, firstSeen := 1, lastSeen := 2,
         status := "active" }]
      [("cookie__ga_.shop.com",
        { allowedDataTypes := [], action := "block", timestamp := 3,
          cookieName := "_ga", cookieDomain := ".shop.com", potentialData := [],
          blocked := true })]
      (by decide) (by decide)).1.2.1,
   ((c4_stats_bounds_amended ⟨"shop.com", 0⟩ "shop.com" 0
      (some ⟨"https://shop.com/", "shop.com"⟩)
      [⟨"sess", "shop.com", some "1", "/", true, false, "lax", none⟩]
      [{ cookie := ⟨"_ga", ".shop.com", some "123", "/", false, false, "lax", none⟩,
         potentialData := [], riskScore := 4, firstSeen := 1, lastSeen := 2,
         status := "active" }]
      [("cookie__ga_.shop.com",
        { allowedDataTypes := [], action := "block", timestamp := 3,
          cookieName := "_ga", cookieDomain := ".shop.com", potentialData := [],
          blocked := true })]
      (by decide) (by decide)).2 (by decide) (by decide)).2.1⟩

